import Mathlib

/-!
Verification of the Game-of-Life demo (`main.go`).

The pure part of the program (`World`, `neighbourCount`, `World.Update`,
`World.init`, `NewWorld`, `World.Draw`) is embedded as executable Lean
functions below, translated statement by statement from the Go source.
The concurrent part (the rendezvous handshake between `RunWorldUpdateLoop`
and the ebiten callbacks `Renderer.Draw` / `Renderer.Render`, and the
shutdown protocol) is embedded as explicit step relations on finite
state types, one transition per blocking/synchronising operation of the
source.
-/

namespace Life

/-- `World` from the source: `area []bool`, `width int`, `height int`.
The slice is row-major: the cell `(x, y)` lives at index `y*width + x`. -/
@[ext]
structure World where
  area : List Bool
  width : Nat
  height : Nat
  deriving Repr, DecidableEq

/-- The `(i, j)` pairs visited by the two nested loops of `neighbourCount`
(`j` outer from -1 to 1, `i` inner from -1 to 1), including the centre
`(0, 0)` which the loop body skips with `continue`. -/
def offsets : List (Int × Int) :=
  [(-1, -1), (0, -1), (1, -1), (-1, 0), (0, 0), (1, 0), (-1, 1), (0, 1), (1, 1)]

/-- One iteration of the loop body of `neighbourCount`: skip the centre,
skip out-of-grid positions (`x2 < 0 || y2 < 0 || width <= x2 || height <= y2`),
otherwise add one when `a[y2*width+x2]` holds. -/
def nbrStep (a : List Bool) (width height x y : Nat) (c : Nat) (p : Int × Int) : Nat :=
  if p.1 = 0 ∧ p.2 = 0 then c
  else
    let x2 : Int := (x : Int) + p.1
    let y2 : Int := (y : Int) + p.2
    if x2 < 0 ∨ y2 < 0 ∨ (width : Int) ≤ x2 ∨ (height : Int) ≤ y2 then c
    else if a.getD (y2.toNat * width + x2.toNat) false then c + 1 else c

/-- `neighbourCount` from the source: the Moore-neighbourhood live count of
`(x, y)`, the two nested loops rendered as a fold over their index pairs. -/
def neighbourCount (a : List Bool) (width height x y : Nat) : Nat :=
  offsets.foldl (nbrStep a width height x y) 0

/-- The cell written by one iteration of the doubly nested loop of
`World.Update`: the `switch` over `pop` with cases in source order and the
implicit default (`next[y*width+x]` keeps its zero value `false`). -/
def nextCell (a : List Bool) (width height x y : Nat) : Bool :=
  let pop := neighbourCount a width height x y
  if pop < 2 then false
  else if (pop = 2 ∨ pop = 3) ∧ a.getD (y * width + x) false = true then true
  else if pop > 3 then false
  else if pop = 3 then true
  else false

/-- `World.Update` from the source: allocate `next` of length `width*height`,
fill `next[y*width+x]` for every `y < height`, `x < width` (linear index
`k = y*width + x`, so `x = k % width` and `y = k / width`), replace `area`.
The `t *time.Time` argument is never read; it is kept as an unused `Int`. -/
def World.update (w : World) (t : Int) : World :=
  let next := (List.range (w.width * w.height)).map
    (fun k => nextCell w.area w.width w.height (k % w.width) (k / w.width))
  { w with area := next }

/-! ### Spec-side definitions (written from the spec's words, for comparison) -/

/-- Spec-side: the transition rule as the spec states it, first match wins,
falling through to dead: `pop < 2` dead; `pop ∈ {2,3}` and alive, alive;
`pop > 3` dead; `pop = 3` alive; otherwise dead. -/
def ruleSpec (pop : Nat) (alive : Bool) : Bool :=
  if pop < 2 then false
  else if (pop = 2 ∨ pop = 3) ∧ alive = true then true
  else if pop > 3 then false
  else if pop = 3 then true
  else false

/-- Spec-side: the 8 proper Moore-neighbourhood offsets. -/
def mooreOffsets : List (Int × Int) :=
  [(-1, -1), (0, -1), (1, -1), (-1, 0), (1, 0), (-1, 1), (0, 1), (1, 1)]

/-- Spec-side: neighbour position `(x, y) + p` is inside the grid and the cell
there is alive; positions outside the grid count as absent. -/
def inGridLive (a : List Bool) (width height x y : Nat) (p : Int × Int) : Bool :=
  let x2 : Int := (x : Int) + p.1
  let y2 : Int := (y : Int) + p.2
  if x2 < 0 ∨ y2 < 0 ∨ (width : Int) ≤ x2 ∨ (height : Int) ≤ y2 then false
  else a.getD (y2.toNat * width + x2.toNat) false

/-! ### Helper lemmas -/

lemma nbrStep_eq (a : List Bool) (width height x y c : Nat) (p : Int × Int) :
    nbrStep a width height x y c p =
      c + (if (if p.1 = 0 ∧ p.2 = 0 then false
               else inGridLive a width height x y p) = true then 1 else 0) := by
  simp only [nbrStep, inGridLive]
  split_ifs <;> simp_all

lemma foldl_nbrStep (a : List Bool) (width height x y : Nat) :
    ∀ (l : List (Int × Int)) (c : Nat),
      l.foldl (nbrStep a width height x y) c
        = c + l.countP (fun p => if p.1 = 0 ∧ p.2 = 0 then false
            else inGridLive a width height x y p) := by
  intro l
  induction l with
  | nil => intro c; simp
  | cons p l ih =>
      intro c
      rw [List.foldl_cons, ih, nbrStep_eq, List.countP_cons]
      omega

/-- The loop of `neighbourCount` computes the number of in-grid live Moore
neighbours. -/
lemma neighbourCount_eq_countP (a : List Bool) (width height x y : Nat) :
    neighbourCount a width height x y
      = mooreOffsets.countP (inGridLive a width height x y) := by
  rw [neighbourCount, foldl_nbrStep]
  simp [offsets, mooreOffsets, List.countP_cons]

lemma index_lt {x y w h : Nat} (hx : x < w) (hy : y < h) : y * w + x < w * h :=
  calc y * w + x < y * w + w := by omega
    _ = (y + 1) * w := by ring
    _ ≤ h * w := Nat.mul_le_mul_right w (by omega)
    _ = w * h := Nat.mul_comm h w

lemma rangeMap_getD {n k : Nat} {α : Type} (f : Nat → α) (d : α) (hk : k < n) :
    ((List.range n).map f).getD k d = f k := by
  rw [List.getD_eq_getElem?_getD, List.getElem?_map]
  simp [List.getElem?_range, hk]

/-- The cell `(x, y)` of the next generation is `nextCell` at `(x, y)`. -/
lemma update_area_getD (w : World) (t : Int) {x y : Nat}
    (hx : x < w.width) (hy : y < w.height) :
    (w.update t).area.getD (y * w.width + x) false
      = nextCell w.area w.width w.height x y := by
  have hw : 0 < w.width := Nat.pos_of_ne_zero (by omega)
  have e1 : (y * w.width + x) % w.width = x := by
    rw [Nat.add_comm, Nat.mul_comm, Nat.add_mul_mod_self_left, Nat.mod_eq_of_lt hx]
  have e2 : (y * w.width + x) / w.width = y := by
    rw [Nat.add_comm, Nat.mul_comm, Nat.add_mul_div_left _ _ hw, Nat.div_eq_of_lt hx,
      Nat.zero_add]
  rw [World.update, rangeMap_getD _ _ (index_lt hx hy), e1, e2]

/-! ### Claim theorems about the grid transition -/

/-- C1: one step of `World.Update` sets the cell `(x, y)` of the new grid
according to the first matching rule over its Moore-neighbourhood live count
`pop`: `pop < 2` dead; `pop ∈ {2,3}` and currently alive, alive; `pop > 3`
dead; `pop = 3` alive; no match, dead. -/
theorem C1_update_rule (w : World) (t : Int) (x y : Nat)
    (hlen : w.area.length = w.width * w.height) (hx : x < w.width) (hy : y < w.height) :
    (w.update t).area.getD (y * w.width + x) false
      = ruleSpec (neighbourCount w.area w.width w.height x y)
          (w.area.getD (y * w.width + x) false) := by
  rw [update_area_getD w t hx hy]
  rfl

theorem C1_update_rule_witness :
    (World.mk [true, true, true, false] 2 2).area.length
        = (World.mk [true, true, true, false] 2 2).width
            * (World.mk [true, true, true, false] 2 2).height
    ∧ ((World.mk [true, true, true, false] 2 2).update 0).area.getD (1 * 2 + 0) false
        = ruleSpec (neighbourCount [true, true, true, false] 2 2 0 1)
            ((World.mk [true, true, true, false] 2 2).area.getD (1 * 2 + 0) false) :=
  ⟨by decide, C1_update_rule (World.mk [true, true, true, false] 2 2) 0 0 1
    (by decide) (by decide) (by decide)⟩

/-- C2: `neighbourCount` counts exactly the in-grid live cells among the 8
Moore-neighbourhood offsets (out-of-grid positions are absent, never alive,
no wrap-around), and for the corner `(0, 0)` the count is at most 3. -/
theorem C2_neighbour_count_in_grid :
    (∀ (a : List Bool) (width height x y : Nat),
      neighbourCount a width height x y
        = mooreOffsets.countP (inGridLive a width height x y)) ∧
    (∀ (a : List Bool) (width height : Nat), neighbourCount a width height 0 0 ≤ 3) := by
  refine ⟨neighbourCount_eq_countP, ?_⟩
  intro a width height
  rw [neighbourCount_eq_countP]
  simp only [mooreOffsets, List.countP_cons, List.countP_nil, inGridLive]
  norm_num
  split_ifs <;> omega

/-- C10: `World.Update` is deterministic in the grid alone: equal widths,
heights and cell sequences give equal next-generation cell sequences,
whatever the (never read) time arguments are. -/
theorem C10_update_deterministic (w1 w2 : World) (t1 t2 : Int)
    (hw : w1.width = w2.width) (hh : w1.height = w2.height) (ha : w1.area = w2.area) :
    (w1.update t1).area = (w2.update t2).area := by
  simp only [World.update, hw, hh, ha]

theorem C10_update_deterministic_witness :
    ((World.mk [true] 1 1).update 0).area = ((World.mk [true] 1 1).update 7).area :=
  C10_update_deterministic (World.mk [true] 1 1) (World.mk [true] 1 1) 0 7 rfl rfl rfl

/-! ### Bounds-checked transition (Go slice indexing panics out of range;
`none` models that panic, so `updateChecked = some _` says no access during
the transition indexes outside the cell sequence). -/

/-- One iteration of the `neighbourCount` loop with checked indexing. -/
def nbrStepC (a : List Bool) (width height x y : Nat) (oc : Option Nat) (p : Int × Int) :
    Option Nat :=
  oc.bind fun c =>
    if p.1 = 0 ∧ p.2 = 0 then some c
    else
      let x2 : Int := (x : Int) + p.1
      let y2 : Int := (y : Int) + p.2
      if x2 < 0 ∨ y2 < 0 ∨ (width : Int) ≤ x2 ∨ (height : Int) ≤ y2 then some c
      else (a[y2.toNat * width + x2.toNat]?).map fun b => if b then c + 1 else c

/-- `neighbourCount` with checked indexing. -/
def neighbourCountChecked (a : List Bool) (width height x y : Nat) : Option Nat :=
  offsets.foldl (nbrStepC a width height x y) (some 0)

/-- The `World.Update` loop body with checked indexing (the old cell is read
only when the rule-2 guard needs it, as the `&&` short-circuit does). -/
def nextCellChecked (a : List Bool) (width height x y : Nat) : Option Bool :=
  (neighbourCountChecked a width height x y).bind fun pop =>
    if pop < 2 then some false
    else if pop = 2 ∨ pop = 3 then
      (a[y * width + x]?).map fun alive =>
        if alive then true
        else if pop > 3 then false
        else if pop = 3 then true
        else false
    else if pop > 3 then some false
    else if pop = 3 then some true
    else some false

/-- `World.Update` with checked indexing. -/
def World.updateChecked (w : World) (t : Int) : Option World :=
  ((List.range (w.width * w.height)).mapM
      (fun k => nextCellChecked w.area w.width w.height (k % w.width) (k / w.width))).map
    fun next => { w with area := next }

lemma getElem?_eq_getD {l : List Bool} {i : Nat} (h : i < l.length) :
    l[i]? = some (l.getD i false) := by
  rw [List.getElem?_eq_getElem h, List.getD_eq_getElem?_getD, List.getElem?_eq_getElem h]
  rfl

lemma nbrStepC_eq (a : List Bool) (width height x y : Nat)
    (hlen : a.length = width * height) (c : Nat) (p : Int × Int) :
    nbrStepC a width height x y (some c) p = some (nbrStep a width height x y c p) := by
  simp only [nbrStepC, nbrStep, Option.some_bind]
  by_cases h1 : p.1 = 0 ∧ p.2 = 0
  · simp [h1]
  by_cases h2 : (x : Int) + p.1 < 0 ∨ (y : Int) + p.2 < 0
      ∨ (width : Int) ≤ (x : Int) + p.1 ∨ (height : Int) ≤ (y : Int) + p.2
  · simp [h1, h2]
  · have hx2 : ((x : Int) + p.1).toNat < width := by omega
    have hy2 : ((y : Int) + p.2).toNat < height := by omega
    have hidx : ((y : Int) + p.2).toNat * width + ((x : Int) + p.1).toNat < a.length := by
      rw [hlen]; exact index_lt hx2 hy2
    simp only [if_neg h1, if_neg h2, getElem?_eq_getD hidx, Option.map_some']

lemma neighbourCountChecked_eq (a : List Bool) (width height x y : Nat)
    (hlen : a.length = width * height) :
    neighbourCountChecked a width height x y
      = some (neighbourCount a width height x y) := by
  rw [neighbourCountChecked, neighbourCount]
  have : ∀ (l : List (Int × Int)) (c : Nat),
      l.foldl (nbrStepC a width height x y) (some c)
        = some (l.foldl (nbrStep a width height x y) c) := by
    intro l
    induction l with
    | nil => intro c; rfl
    | cons p l ih =>
        intro c
        rw [List.foldl_cons, List.foldl_cons, nbrStepC_eq a width height x y hlen]
        exact ih _
  exact this offsets 0

lemma nextCellChecked_eq (a : List Bool) (width height x y : Nat)
    (hlen : a.length = width * height) (hx : x < width) (hy : y < height) :
    nextCellChecked a width height x y = some (nextCell a width height x y) := by
  have hidx : y * width + x < a.length := by rw [hlen]; exact index_lt hx hy
  rw [nextCellChecked, neighbourCountChecked_eq a width height x y hlen,
    Option.some_bind, nextCell, getElem?_eq_getD hidx]
  split_ifs <;> simp_all

lemma mapM_eq_map {α β : Type} (f : α → Option β) (g : α → β) :
    ∀ (l : List α), (∀ a ∈ l, f a = some (g a)) → l.mapM f = some (l.map g) := by
  intro l
  induction l with
  | nil => intro _; rfl
  | cons a l ih =>
      intro h
      rw [List.map_cons, List.mapM_cons, h a (List.mem_cons_self a l),
        ih (fun b hb => h b (List.mem_cons_of_mem a hb))]
      rfl

/-- C3: on a well-formed world, `World.Update` keeps `width` and `height`,
the new cell sequence again has length `width*height`, and no cell access
during the transition (neighbour counting included) indexes outside the
sequence (the checked transition succeeds and agrees with the unchecked one). -/
theorem C3_update_invariants (w : World) (t : Int)
    (hlen : w.area.length = w.width * w.height) :
    w.updateChecked t = some (w.update t)
    ∧ (w.update t).width = w.width
    ∧ (w.update t).height = w.height
    ∧ (w.update t).area.length = w.width * w.height := by
  refine ⟨?_, rfl, rfl, by simp [World.update]⟩
  rw [World.updateChecked, World.update]
  rw [mapM_eq_map _ _ _ ?_]
  · rfl
  · intro k hk
    rw [List.mem_range] at hk
    have hw : 0 < w.width := by
      rcases Nat.eq_zero_or_pos w.width with h | h
      · rw [h, Nat.zero_mul] at hk; omega
      · exact h
    exact nextCellChecked_eq _ _ _ _ _ hlen (Nat.mod_lt _ hw)
      (Nat.div_lt_iff_lt_mul hw |>.mpr (by rw [Nat.mul_comm w.height w.width]; exact hk))

theorem C3_update_invariants_witness :
    (World.mk [true, false, false, true] 2 2).area.length
        = (World.mk [true, false, false, true] 2 2).width
            * (World.mk [true, false, false, true] 2 2).height
    ∧ (World.mk [true, false, false, true] 2 2).updateChecked 0
        = some ((World.mk [true, false, false, true] 2 2).update 0) :=
  ⟨by decide, (C3_update_invariants (World.mk [true, false, false, true] 2 2) 0
    (by decide)).1⟩

/-! ### `World.init` and `NewWorld` -/

/-- `World.init` from the source: `maxLiveCells` iterations, each drawing a
random `(x, y)` (`rand.Intn(w.width)`, `rand.Intn(w.height)`) and executing
`w.area[y*w.width+x] = true`. The sequence of random draws is passed
explicitly. -/
def World.init (w : World) (draws : List (Nat × Nat)) : World :=
  { w with area := draws.foldl (fun a d => a.set (d.2 * w.width + d.1) true) w.area }

/-- `NewWorld` from the source: an all-dead grid of length `width*height`,
then `init` with the random draws (one per requested initial live cell). -/
def NewWorld (width height : Nat) (draws : List (Nat × Nat)) : World :=
  (World.mk (List.replicate (width * height) false) width height).init draws

lemma count_set_true_le (l : List Bool) (i : Nat) :
    (l.set i true).count true ≤ l.count true + 1 := by
  induction l generalizing i with
  | nil => simp
  | cons hd tl ih =>
      cases i with
      | zero => cases hd <;> simp [List.count_cons]
      | succ i =>
          rw [List.set_cons_succ, List.count_cons, List.count_cons]
          have := ih i
          omega

lemma count_foldl_set_le (draws : List (Nat × Nat)) (width : Nat) :
    ∀ (a : List Bool),
      (draws.foldl (fun a d => a.set (d.2 * width + d.1) true) a).count true
        ≤ a.count true + draws.length := by
  induction draws with
  | nil => intro a; simp
  | cons d draws ih =>
      intro a
      rw [List.foldl_cons]
      calc (draws.foldl (fun a d => a.set (d.2 * width + d.1) true)
              (a.set (d.2 * width + d.1) true)).count true
          ≤ (a.set (d.2 * width + d.1) true).count true + draws.length := ih _
        _ ≤ a.count true + 1 + draws.length := by
            have := count_set_true_le a (d.2 * width + d.1)
            omega
        _ = a.count true + (d :: draws).length := by simp; omega

lemma length_foldl_set (draws : List (Nat × Nat)) (width : Nat) :
    ∀ (a : List Bool),
      (draws.foldl (fun a d => a.set (d.2 * width + d.1) true) a).length = a.length := by
  induction draws with
  | nil => intro a; rfl
  | cons d draws ih => intro a; rw [List.foldl_cons, ih, List.length_set]

/-- C5: `NewWorld` first allocates an all-dead `width*height` grid, then one
placement per draw, each marking an in-range cell alive; the result has at
most `maxInitialLiveCells` live cells, all live cells sit at in-bounds
indices, and zero placements leave the grid all dead. -/
theorem C5_new_world (width height maxInit : Nat) (draws : List (Nat × Nat))
    (hlen : draws.length = maxInit)
    (hin : ∀ d ∈ draws, d.1 < width ∧ d.2 < height) :
    (NewWorld width height draws).area.count true ≤ maxInit
    ∧ (NewWorld width height draws).area.length = width * height
    ∧ (∀ d ∈ draws, d.2 * width + d.1 < (NewWorld width height draws).area.length)
    ∧ (∀ i, (NewWorld width height draws).area.getD i false = true → i < width * height)
    ∧ (maxInit = 0 → (NewWorld width height draws).area
        = List.replicate (width * height) false) := by
  have hL : (NewWorld width height draws).area.length = width * height := by
    rw [NewWorld, World.init, length_foldl_set, List.length_replicate]
  refine ⟨?_, hL, ?_, ?_, ?_⟩
  · rw [NewWorld, World.init]
    have := count_foldl_set_le draws width (List.replicate (width * height) false)
    simp only [List.count_replicate] at this
    simp only [hlen] at this
    simpa using this
  · intro d hd
    rw [hL]
    exact index_lt (hin d hd).1 (hin d hd).2
  · intro i hi
    by_contra hcon
    push_neg at hcon
    rw [List.getD_eq_default] at hi
    · exact absurd hi (by simp)
    · rw [hL]; exact hcon
  · intro h0
    have : draws = [] := List.eq_nil_of_length_eq_zero (by omega)
    rw [NewWorld, World.init, this]
    rfl

theorem C5_new_world_witness :
    (([((0 : Nat), (0 : Nat)), (0, 0)] : List (Nat × Nat)).length = 2
      ∧ (∀ d ∈ ([((0 : Nat), (0 : Nat)), (0, 0)] : List (Nat × Nat)),
          d.1 < 2 ∧ d.2 < 2))
    ∧ (NewWorld 2 2 [(0, 0), (0, 0)]).area.count true ≤ 2 :=
  ⟨⟨by decide, by decide⟩, (C5_new_world 2 2 2 [(0, 0), (0, 0)] (by decide) (by decide)).1⟩

/-! ### `World.Draw` -/

/-- `World.Draw` from the source: the pixels painted, in slice order — for
every live cell at index `i`, `dc.SetPixel(i%w.width, i/w.height)` (the
source divides by `height`). -/
def World.draw (w : World) : List (Nat × Nat) :=
  w.area.enum.filterMap fun iv =>
    if iv.2 then some (iv.1 % w.width, iv.1 / w.height) else none

/-- Spec-side: each live cell at row-major index `i` is painted at its own
grid position `(i % width, i / width)`. -/
def drawSpec (w : World) : List (Nat × Nat) :=
  w.area.enum.filterMap fun iv =>
    if iv.2 then some (iv.1 % w.width, iv.1 / w.width) else none

/-- C9: the claim fails on the code: `World.Draw` computes the pixel row as
`i / height` instead of `i / width`, so on a 2×3 grid the live cell at
row-major index 2 (grid position `(0, 1)`) is painted at `(0, 0)`. -/
theorem C9_draw_divides_by_height :
    (World.mk [false, false, true, false, false, false] 2 3).draw = [(0, 0)]
    ∧ drawSpec (World.mk [false, false, true, false, false, false] 2 3) = [(0, 1)]
    ∧ (World.mk [false, false, true, false, false, false] 2 3).draw
        ≠ drawSpec (World.mk [false, false, true, false, false, false] 2 3) := by
  refine ⟨by decide, by decide, by decide⟩

/-! ### Glider propagation (C4)

A finitely supported pattern on the infinite plane, its Game-of-Life step,
and the world that carries the pattern at offset `(ox, oy)`. When the
pattern's support box sits inside the grid with a one-cell margin, one
`World.update` of the carrying world is exactly one infinite-plane step of
the pattern, so the 4-generation glider evolution transfers to every large
enough grid and placement. -/

/-- The pattern with the given live cells. -/
def patOf (L : List (Int × Int)) : Int → Int → Bool := fun u v => decide ((u, v) ∈ L)

/-- Infinite-plane Moore-neighbourhood live count. -/
def popZ (p : Int → Int → Bool) (u v : Int) : Nat :=
  mooreOffsets.countP fun q => p (u + q.1) (v + q.2)

/-- Infinite-plane Game-of-Life step, with the same rule order as `nextCell`. -/
def lifeStepZ (p : Int → Int → Bool) (u v : Int) : Bool :=
  let pop := popZ p u v
  if pop < 2 then false
  else if (pop = 2 ∨ pop = 3) ∧ p u v = true then true
  else if pop > 3 then false
  else if pop = 3 then true
  else false

/-- The `width × height` world whose cell `(x, y)` is alive iff
`p (x - ox) (y - oy)`. -/
def patternWorld (width height : Nat) (ox oy : Int) (p : Int → Int → Bool) : World :=
  World.mk ((List.range (width * height)).map
    fun k => p (((k % width : Nat) : Int) - ox) (((k / width : Nat) : Int) - oy)) width height

/-- `p` is dead outside the box `[a, b) × [c, d)`. -/
def SuppIn (p : Int → Int → Bool) (a b c d : Int) : Prop :=
  ∀ u v, p u v = true → a ≤ u ∧ u < b ∧ c ≤ v ∧ v < d

lemma suppIn_patOf (L : List (Int × Int)) (a b c d : Int)
    (h : ∀ q ∈ L, a ≤ q.1 ∧ q.1 < b ∧ c ≤ q.2 ∧ q.2 < d) :
    SuppIn (patOf L) a b c d := by
  intro u v hp
  simp only [patOf, decide_eq_true_eq] at hp
  exact h _ hp

lemma patternWorld_getD (width height : Nat) (ox oy : Int) (p : Int → Int → Bool)
    {x y : Nat} (hx : x < width) (hy : y < height) :
    (patternWorld width height ox oy p).area.getD (y * width + x) false
      = p ((x : Int) - ox) ((y : Int) - oy) := by
  have hw : 0 < width := Nat.pos_of_ne_zero (by omega)
  have e1 : (y * width + x) % width = x := by
    rw [Nat.add_comm, Nat.mul_comm, Nat.add_mul_mod_self_left, Nat.mod_eq_of_lt hx]
  have e2 : (y * width + x) / width = y := by
    rw [Nat.add_comm, Nat.mul_comm, Nat.add_mul_div_left _ _ hw, Nat.div_eq_of_lt hx,
      Nat.zero_add]
  rw [patternWorld, rangeMap_getD _ _ (index_lt hx hy), e1, e2]

/-- With the support box inside the grid, the in-grid neighbour count of the
carrying world is the infinite-plane neighbour count of the pattern. -/
lemma neighbourCount_patternWorld (width height : Nat) (ox oy : Int)
    (p : Int → Int → Bool) (a b c d : Int) (hs : SuppIn p a b c d)
    (h1 : 0 ≤ ox + a) (h2 : ox + b ≤ (width : Int))
    (h3 : 0 ≤ oy + c) (h4 : oy + d ≤ (height : Int))
    {x y : Nat} (hx : x < width) (hy : y < height) :
    neighbourCount (patternWorld width height ox oy p).area width height x y
      = popZ p ((x : Int) - ox) ((y : Int) - oy) := by
  rw [neighbourCount_eq_countP, popZ]
  apply List.countP_congr
  intro q _
  rw [inGridLive]
  constructor
  · intro hig
    by_cases hg : (x : Int) + q.1 < 0 ∨ (y : Int) + q.2 < 0
        ∨ (width : Int) ≤ (x : Int) + q.1 ∨ (height : Int) ≤ (y : Int) + q.2
    · rw [if_pos hg] at hig; exact absurd hig (by simp)
    · rw [if_neg hg] at hig
      push_neg at hg
      have hx2 : ((x : Int) + q.1).toNat < width := by omega
      have hy2 : ((y : Int) + q.2).toNat < height := by omega
      rw [patternWorld_getD width height ox oy p hx2 hy2] at hig
      have e1 : ((((x : Int) + q.1).toNat : Int)) - ox = ((x : Int) - ox) + q.1 := by omega
      have e2 : ((((y : Int) + q.2).toNat : Int)) - oy = ((y : Int) - oy) + q.2 := by omega
      rwa [e1, e2] at hig
  · intro hp
    by_cases hg : (x : Int) + q.1 < 0 ∨ (y : Int) + q.2 < 0
        ∨ (width : Int) ≤ (x : Int) + q.1 ∨ (height : Int) ≤ (y : Int) + q.2
    · exfalso
      have hb := hs _ _ hp
      omega
    · rw [if_neg hg]
      push_neg at hg
      have hx2 : ((x : Int) + q.1).toNat < width := by omega
      have hy2 : ((y : Int) + q.2).toNat < height := by omega
      rw [patternWorld_getD width height ox oy p hx2 hy2]
      have e1 : ((((x : Int) + q.1).toNat : Int)) - ox = ((x : Int) - ox) + q.1 := by omega
      have e2 : ((((y : Int) + q.2).toNat : Int)) - oy = ((y : Int) - oy) + q.2 := by omega
      rwa [e1, e2]

lemma nextCell_eq_ruleSpec (a : List Bool) (width height x y : Nat) :
    nextCell a width height x y
      = ruleSpec (neighbourCount a width height x y) (a.getD (y * width + x) false) := rfl

lemma lifeStepZ_eq_ruleSpec (p : Int → Int → Bool) (u v : Int) :
    lifeStepZ p u v = ruleSpec (popZ p u v) (p u v) := rfl

/-- One `World.update` of a carrying world is one infinite-plane step of the
pattern, when the support box sits inside the grid. -/
lemma update_patternWorld (width height : Nat) (ox oy : Int) (t : Int)
    (p : Int → Int → Bool) (a b c d : Int) (hs : SuppIn p a b c d)
    (h1 : 0 ≤ ox + a) (h2 : ox + b ≤ (width : Int))
    (h3 : 0 ≤ oy + c) (h4 : oy + d ≤ (height : Int)) :
    (patternWorld width height ox oy p).update t
      = patternWorld width height ox oy (lifeStepZ p) := by
  refine World.ext ?_ rfl rfl
  show (List.range (width * height)).map
      (fun k => nextCell (patternWorld width height ox oy p).area width height
        (k % width) (k / width))
    = (List.range (width * height)).map
      (fun k => lifeStepZ p (((k % width : Nat) : Int) - ox) (((k / width : Nat) : Int) - oy))
  apply List.map_congr_left
  intro k hk
  rw [List.mem_range] at hk
  have hw : 0 < width := by
    rcases Nat.eq_zero_or_pos width with h | h
    · rw [h, Nat.zero_mul] at hk; omega
    · exact h
  have hx : k % width < width := Nat.mod_lt _ hw
  have hy : k / width < height :=
    Nat.div_lt_iff_lt_mul hw |>.mpr (by rw [Nat.mul_comm height width]; exact hk)
  rw [nextCell_eq_ruleSpec, lifeStepZ_eq_ruleSpec,
    neighbourCount_patternWorld width height ox oy p a b c d hs h1 h2 h3 h4 hx hy,
    patternWorld_getD width height ox oy p hx hy]

/-- A pattern-step can be alive only next to a live cell, so the support box
grows by at most one cell in each direction. -/
lemma suppIn_lifeStepZ (p : Int → Int → Bool) (a b c d : Int) (hs : SuppIn p a b c d) :
    SuppIn (lifeStepZ p) (a - 1) (b + 1) (c - 1) (d + 1) := by
  intro u v hp
  have hpop : 0 < popZ p u v := by
    rcases Nat.eq_zero_or_pos (popZ p u v) with hz | hz
    · rw [lifeStepZ] at hp
      rw [hz] at hp
      simp at hp
    · exact hz
  rw [popZ, List.countP_pos_iff] at hpop
  obtain ⟨q, hq, hqp⟩ := hpop
  have hb := hs _ _ hqp
  have hqr : -1 ≤ q.1 ∧ q.1 ≤ 1 ∧ -1 ≤ q.2 ∧ q.2 ≤ 1 := by
    fin_cases hq <;> simp
  omega

/-- Two patterns with support in a common box agree everywhere as soon as
they agree on the box. -/
lemma pattern_eq_of_eq_on_box (p q : Int → Int → Bool) (a b c d : Int)
    (hp : SuppIn p a b c d) (hq : SuppIn q a b c d)
    (hbox : ∀ u ∈ Finset.Icc a (b - 1), ∀ v ∈ Finset.Icc c (d - 1), p u v = q u v) :
    ∀ u v, p u v = q u v := by
  intro u v
  by_cases hin : a ≤ u ∧ u ≤ b - 1 ∧ c ≤ v ∧ v ≤ d - 1
  · exact hbox u (Finset.mem_Icc.mpr ⟨hin.1, hin.2.1⟩)
      v (Finset.mem_Icc.mpr ⟨hin.2.2.1, hin.2.2.2⟩)
  · cases hpv : p u v
    · cases hqv : q u v
      · rfl
      · exact absurd (hq _ _ hqv) (by omega)
    · exact absurd (hp _ _ hpv) (by omega)

lemma patternWorld_congr (width height : Nat) (ox oy : Int) (p q : Int → Int → Bool)
    (h : ∀ u v, p u v = q u v) :
    patternWorld width height ox oy p = patternWorld width height ox oy q := by
  refine World.ext ?_ rfl rfl
  exact List.map_congr_left fun k _ => h _ _

lemma patternWorld_shift (width height : Nat) (ox oy : Int) (p : Int → Int → Bool) :
    patternWorld width height ox oy (fun u v => p (u - 1) (v - 1))
      = patternWorld width height (ox + 1) (oy + 1) p := by
  refine World.ext ?_ rfl rfl
  refine List.map_congr_left fun k _ => ?_
  show p _ _ = p _ _
  congr 1 <;> omega

/-- The standard 5-cell glider and its next four generations; generation 4
is generation 0 shifted by `(1, 1)`. -/
def glider0 : List (Int × Int) := [(1, 0), (2, 1), (0, 2), (1, 2), (2, 2)]

def glider1 : List (Int × Int) := [(0, 1), (2, 1), (1, 2), (2, 2), (1, 3)]

def glider2 : List (Int × Int) := [(2, 1), (0, 2), (2, 2), (1, 3), (2, 3)]

def glider3 : List (Int × Int) := [(1, 1), (2, 2), (3, 2), (1, 3), (2, 3)]

def glider4 : List (Int × Int) := [(2, 1), (3, 2), (1, 3), (2, 3), (3, 3)]

lemma step_glider0 : ∀ u v, lifeStepZ (patOf glider0) u v = patOf glider1 u v :=
  pattern_eq_of_eq_on_box _ _ (-1) 4 (-1) 4
    (suppIn_lifeStepZ _ 0 3 0 3 (suppIn_patOf _ _ _ _ _ (by decide)))
    (suppIn_patOf _ _ _ _ _ (by decide)) (by decide)

lemma step_glider1 : ∀ u v, lifeStepZ (patOf glider1) u v = patOf glider2 u v :=
  pattern_eq_of_eq_on_box _ _ (-1) 4 0 5
    (suppIn_lifeStepZ _ 0 3 1 4 (suppIn_patOf _ _ _ _ _ (by decide)))
    (suppIn_patOf _ _ _ _ _ (by decide)) (by decide)

lemma step_glider2 : ∀ u v, lifeStepZ (patOf glider2) u v = patOf glider3 u v :=
  pattern_eq_of_eq_on_box _ _ (-1) 4 0 5
    (suppIn_lifeStepZ _ 0 3 1 4 (suppIn_patOf _ _ _ _ _ (by decide)))
    (suppIn_patOf _ _ _ _ _ (by decide)) (by decide)

lemma step_glider3 : ∀ u v, lifeStepZ (patOf glider3) u v = patOf glider4 u v :=
  pattern_eq_of_eq_on_box _ _ 0 5 0 5
    (suppIn_lifeStepZ _ 1 4 1 4 (suppIn_patOf _ _ _ _ _ (by decide)))
    (suppIn_patOf _ _ _ _ _ (by decide)) (by decide)

lemma glider4_shift : ∀ u v, patOf glider4 u v = patOf glider0 (u - 1) (v - 1) := by
  have hq : SuppIn (fun u v => patOf glider0 (u - 1) (v - 1)) 1 4 1 4 := by
    intro u v h
    have := suppIn_patOf glider0 0 3 0 3 (by decide) (u - 1) (v - 1) h
    omega
  exact pattern_eq_of_eq_on_box _ _ 1 4 1 4
    (suppIn_patOf _ _ _ _ _ (by decide)) hq (by decide)

/-- C4: a grid containing exactly a standard 5-cell glider at offset
`(ox, oy)`, placed far enough from every edge for its 4-generation evolution
(`0 ≤ ox`, `0 ≤ oy`, `ox + 4 ≤ width`, `oy + 4 ≤ height`), after four
`World.Update` steps contains exactly the same glider translated by `(1, 1)`
and no other live cells. -/
theorem C4_glider_shift (width height : Nat) (ox oy t1 t2 t3 t4 : Int)
    (h1 : 0 ≤ ox) (h2 : 0 ≤ oy)
    (h3 : ox + 4 ≤ (width : Int)) (h4 : oy + 4 ≤ (height : Int)) :
    ((((patternWorld width height ox oy (patOf glider0)).update t1).update t2).update
        t3).update t4
      = patternWorld width height (ox + 1) (oy + 1) (patOf glider0) := by
  rw [update_patternWorld width height ox oy t1 _ 0 3 0 3
      (suppIn_patOf _ _ _ _ _ (by decide)) (by omega) (by omega) (by omega) (by omega),
    patternWorld_congr width height ox oy _ _ step_glider0,
    update_patternWorld width height ox oy t2 _ 0 3 1 4
      (suppIn_patOf _ _ _ _ _ (by decide)) (by omega) (by omega) (by omega) (by omega),
    patternWorld_congr width height ox oy _ _ step_glider1,
    update_patternWorld width height ox oy t3 _ 0 3 1 4
      (suppIn_patOf _ _ _ _ _ (by decide)) (by omega) (by omega) (by omega) (by omega),
    patternWorld_congr width height ox oy _ _ step_glider2,
    update_patternWorld width height ox oy t4 _ 1 4 1 4
      (suppIn_patOf _ _ _ _ _ (by decide)) (by omega) (by omega) (by omega) (by omega),
    patternWorld_congr width height ox oy _ _ step_glider3,
    patternWorld_congr width height ox oy _ _ glider4_shift,
    patternWorld_shift]

theorem C4_glider_shift_witness :
    ((0 : Int) ≤ 0 ∧ (0 : Int) ≤ 0 ∧ (0 : Int) + 4 ≤ ((5 : Nat) : Int)
      ∧ (0 : Int) + 4 ≤ ((5 : Nat) : Int))
    ∧ ((((patternWorld 5 5 0 0 (patOf glider0)).update 0).update 0).update 0).update 0
        = patternWorld 5 5 (0 + 1) (0 + 1) (patOf glider0) :=
  ⟨by norm_num, C4_glider_shift 5 5 0 0 0 0 0 0 (by norm_num) (by norm_num)
    (by norm_num) (by norm_num)⟩

end Life

/-! ### The render handshake before shutdown (C6)

`RunWorldUpdateLoop` calls `w.Update` then `r.Render()`, which sends on the
unbuffered channel `r.ch` and, in its deferred function, receives from it.
`Renderer.Draw` (invoked synchronously by ebiten once per frame) first
receives from `r.ch`, paints, and on exit its deferred function sends on
`r.ch`. The two tasks and the two rendezvous are modelled as an interleaved
step relation; a send and its matching receive on the zero-capacity channel
complete together. Counters instrument the claim: generations computed,
ready signals observed by `Draw`, acknowledgements completed. -/

namespace Handshake

/-- Update-loop position: `idle` at the select before the next tick;
`computed` after `w.Update(&t)`, at the send `r.ch <- struct{}{}` inside
`Render`; `waitAck` at the deferred receive `<-r.ch` inside `Render`. -/
inductive UPC
  | idle
  | computed
  | waitAck
  deriving DecidableEq, Repr

/-- Render-task position inside `Renderer.Draw`: `waitReady` at the entry
receive `<-r.ch`; `painting` in the body; `ackPending` at the deferred send
`r.ch <- struct{}{}` that runs when `Draw` exits. -/
inductive RPC
  | waitReady
  | painting
  | ackPending
  deriving DecidableEq, Repr

/-- Joint state of the two tasks plus the instrumented counter pair. -/
structure HState where
  u : UPC
  r : RPC
  gens : Nat
  readyObs : Nat
  acks : Nat
  deriving DecidableEq, Repr

/-- One atomic event of the pre-shutdown handshake: a ticker tick with its
`w.Update` call, the ready rendezvous (`Render`'s send with `Draw`'s entry
receive), the paint, and the acknowledgement rendezvous (`Draw`'s deferred
send with `Render`'s deferred receive). -/
inductive HStep : HState → HState → Prop
  | tick (s : HState) (h : s.u = UPC.idle) :
      HStep s { s with u := UPC.computed, gens := s.gens + 1 }
  | ready (s : HState) (hu : s.u = UPC.computed) (hr : s.r = RPC.waitReady) :
      HStep s { s with u := UPC.waitAck, r := RPC.painting, readyObs := s.readyObs + 1 }
  | paint (s : HState) (hr : s.r = RPC.painting) :
      HStep s { s with r := RPC.ackPending }
  | ack (s : HState) (hu : s.u = UPC.waitAck) (hr : s.r = RPC.ackPending) :
      HStep s { s with u := UPC.idle, r := RPC.waitReady, acks := s.acks + 1 }

/-- Initial state: both tasks at their blocking points, no generation yet. -/
def HInit : HState := ⟨UPC.idle, RPC.waitReady, 0, 0, 0⟩

def HReach (s : HState) : Prop := Relation.ReflTransGen HStep HInit s

/-- Inductive invariant: the two program counters stay in lock step and the
counters track them exactly. -/
def HInv (s : HState) : Prop :=
  (s.u = UPC.idle → s.r = RPC.waitReady ∧ s.gens = s.acks ∧ s.readyObs = s.acks)
  ∧ (s.u = UPC.computed → s.r = RPC.waitReady ∧ s.gens = s.acks + 1 ∧ s.readyObs = s.acks)
  ∧ (s.u = UPC.waitAck → (s.r = RPC.painting ∨ s.r = RPC.ackPending)
      ∧ s.gens = s.acks + 1 ∧ s.readyObs = s.acks + 1)

lemma hInv_init : HInv HInit := by
  refine ⟨fun _ => ⟨rfl, rfl, rfl⟩, fun h => ?_, fun h => ?_⟩ <;> simp [HInit] at h

lemma hInv_step (s s' : HState) (hinv : HInv s) (h : HStep s s') : HInv s' := by
  obtain ⟨i1, i2, i3⟩ := hinv
  cases h with
  | tick h =>
      obtain ⟨a1, a2, a3⟩ := i1 h
      exact ⟨fun hu => absurd hu (by simp), fun _ => ⟨a1, congrArg (· + 1) a2, a3⟩,
        fun hu => absurd hu (by simp)⟩
  | ready hu hr =>
      obtain ⟨a1, a2, a3⟩ := i2 hu
      exact ⟨fun h2 => absurd h2 (by simp), fun h2 => absurd h2 (by simp),
        fun _ => ⟨Or.inl rfl, a2, congrArg (· + 1) a3⟩⟩
  | paint hr =>
      refine ⟨fun hu => ?_, fun hu => ?_, fun hu => ?_⟩
      · obtain ⟨a1, -, -⟩ := i1 hu
        rw [hr] at a1
        exact absurd a1 (by simp)
      · obtain ⟨a1, -, -⟩ := i2 hu
        rw [hr] at a1
        exact absurd a1 (by simp)
      · obtain ⟨-, a2, a3⟩ := i3 hu
        exact ⟨Or.inr rfl, a2, a3⟩
  | ack hu hr =>
      obtain ⟨a1, a2, a3⟩ := i3 hu
      exact ⟨fun _ => ⟨rfl, a2, a3⟩, fun h2 => absurd h2 (by simp),
        fun h2 => absurd h2 (by simp)⟩

lemma hInv_reach (s : HState) (hs : HReach s) : HInv s := by
  induction hs with
  | refl => exact hInv_init
  | tail _ hbc ih => exact hInv_step _ _ ih hbc

/-- C6: in every pre-shutdown interleaving, the instrumented counters never
differ by more than 1: the render task observes at most one ready signal
ahead of its last acknowledgement, generations lead acknowledgements by at
most one, and a tick that computes generation k+1 can only fire when
generation k has been acknowledged. -/
theorem C6_handshake_alternation (s : HState) (hs : HReach s) :
    (s.acks ≤ s.readyObs ∧ s.readyObs ≤ s.acks + 1)
    ∧ (s.acks ≤ s.gens ∧ s.gens ≤ s.acks + 1)
    ∧ (∀ s', HStep s s' → s'.gens = s.gens + 1 → s.gens = s.acks) := by
  obtain ⟨i1, i2, i3⟩ := hInv_reach s hs
  refine ⟨?_, ?_, ?_⟩
  · cases hu : s.u with
    | idle => obtain ⟨_, a2, a3⟩ := i1 hu; omega
    | computed => obtain ⟨_, a2, a3⟩ := i2 hu; omega
    | waitAck => obtain ⟨_, a2, a3⟩ := i3 hu; omega
  · cases hu : s.u with
    | idle => obtain ⟨_, a2, a3⟩ := i1 hu; omega
    | computed => obtain ⟨_, a2, a3⟩ := i2 hu; omega
    | waitAck => obtain ⟨_, a2, a3⟩ := i3 hu; omega
  · intro s' hstep hgen
    cases hstep with
    | tick h => exact (i1 h).2.1
    | ready hu hr => exact absurd hgen (by simp)
    | paint hr => exact absurd hgen (by simp)
    | ack hu hr => exact absurd hgen (by simp)

theorem C6_handshake_alternation_witness :
    (HState.mk UPC.computed RPC.waitReady 1 0 0).acks
        ≤ (HState.mk UPC.computed RPC.waitReady 1 0 0).gens
    ∧ (HState.mk UPC.computed RPC.waitReady 1 0 0).gens
        ≤ (HState.mk UPC.computed RPC.waitReady 1 0 0).acks + 1 :=
  (C6_handshake_alternation (HState.mk UPC.computed RPC.waitReady 1 0 0)
    (Relation.ReflTransGen.single (HStep.tick HInit rfl))).2.1

end Handshake

/-! ### The shutdown protocol (C7, C8)

`RunWorldUpdateLoop` selects among the exit channel `ch`, the 100ms ticker
(`w.Update` then `r.Render()`), and the one-shot 10s shutdown timer
(`r.Shutdown()`). On the ebiten side, each host iteration calls
`Renderer.Update` (which reports the `"Shutdown"` error once the flag is
set, making `RunGame` return) and otherwise `Renderer.Draw`; after `RunGame`
returns, the goroutine of `StartRenderingLoop` runs `close(r.ch)` and then
sends on `ch`. In Go, a send on a closed channel panics (the `recover`
wrappers in `Render` and `Draw` catch it) and a receive from a closed
channel returns immediately. Each of those atomic events is one transition;
`attempts` counts `r.Render()` handshake attempts entered after the
shutdown flag was set, and `panicked` records that some send hit the closed
channel and the `recover` branch ran. -/

namespace Shutdown

/-- `Renderer.Update` from the source: the per-iteration ebiten hook, which
reports the error sentinel `"Shutdown"` to the host when the shutdown flag
is set and otherwise lets the frame proceed. -/
def rendererUpdateHook (shutdown : Bool) : Except String Unit :=
  if shutdown then Except.error "Shutdown" else Except.ok ()

/-- Main-goroutine position: `select` at the top of the loop;
`renderSend` at `r.ch <- struct{}{}` in `Render`; `renderRecv` at the
deferred `<-r.ch` in `Render`; `done` after `break Loop`. -/
inductive MPC
  | select
  | renderSend
  | renderRecv
  | done
  deriving DecidableEq, Repr

/-- Ebiten-goroutine position: `host` between frames (about to run the
`Renderer.Update` hook); `drawRecv` at `Draw`'s entry `<-r.ch`; `drawPaint`
in `Draw`'s body; `drawSend` at `Draw`'s deferred `r.ch <- struct{}{}`;
`closer` after `RunGame` returned, about to `close(r.ch)`; `exitSend` at
`ch <- struct{}{}`; `finished` after that send is received. -/
inductive GPC
  | host
  | drawRecv
  | drawPaint
  | drawSend
  | closer
  | exitSend
  | finished
  deriving DecidableEq, Repr

/-- Joint state: the two positions, the shutdown flag `sd` (`r.shutdown`),
whether `r.ch` is closed, the count of handshake attempts entered after
`sd` was set, and whether a closed-channel panic was recovered. -/
structure SState where
  m : MPC
  g : GPC
  sd : Bool
  closed : Bool
  attempts : Nat
  panicked : Bool
  deriving DecidableEq, Repr

/-- One atomic event of the shutdown protocol. -/
inductive SStep : SState → SState → Prop
  | shutTimer (s : SState) (hm : s.m = MPC.select) (hsd : s.sd = false) :
      SStep s { s with sd := true }
  | tick (s : SState) (hm : s.m = MPC.select) :
      SStep s { s with m := MPC.renderSend,
                       attempts := s.attempts + (if s.sd then 1 else 0) }
  | readySync (s : SState) (hm : s.m = MPC.renderSend) (hg : s.g = GPC.drawRecv)
      (hc : s.closed = false) :
      SStep s { s with m := MPC.renderRecv, g := GPC.drawPaint }
  | sendClosed (s : SState) (hm : s.m = MPC.renderSend) (hc : s.closed = true) :
      SStep s { s with m := MPC.select, panicked := true }
  | paintDone (s : SState) (hg : s.g = GPC.drawPaint) :
      SStep s { s with g := GPC.drawSend }
  | ackSync (s : SState) (hm : s.m = MPC.renderRecv) (hg : s.g = GPC.drawSend)
      (hc : s.closed = false) :
      SStep s { s with m := MPC.select, g := GPC.host }
  | recvClosed (s : SState) (hm : s.m = MPC.renderRecv) (hc : s.closed = true) :
      SStep s { s with m := MPC.select }
  | hostNext (s : SState) (hg : s.g = GPC.host) (hsd : s.sd = false) :
      SStep s { s with g := GPC.drawRecv }
  | hostShut (s : SState) (hg : s.g = GPC.host) (hsd : s.sd = true) :
      SStep s { s with g := GPC.closer }
  | closeCh (s : SState) (hg : s.g = GPC.closer) :
      SStep s { s with g := GPC.exitSend, closed := true }
  | exitSync (s : SState) (hm : s.m = MPC.select) (hg : s.g = GPC.exitSend) :
      SStep s { s with m := MPC.done, g := GPC.finished }
  | drawRecvClosed (s : SState) (hg : s.g = GPC.drawRecv) (hc : s.closed = true) :
      SStep s { s with g := GPC.drawPaint }
  | drawSendClosed (s : SState) (hg : s.g = GPC.drawSend) (hc : s.closed = true) :
      SStep s { s with g := GPC.host, panicked := true }

/-- Initial state: loop at its select, host between frames, flag clear. -/
def SInit : SState := ⟨MPC.select, GPC.host, false, false, 0, false⟩

def SReach (s : SState) : Prop := Relation.ReflTransGen SStep SInit s

/-- Inductive invariant of the shutdown protocol: the channel is closed
exactly from the close onwards, the closing side runs only after the flag
is set, and the two program counters stay compatible. -/
def SInv (s : SState) : Prop :=
  (s.closed = true ↔ (s.g = GPC.exitSend ∨ s.g = GPC.finished))
  ∧ ((s.g = GPC.closer ∨ s.g = GPC.exitSend ∨ s.g = GPC.finished) → s.sd = true)
  ∧ ((s.m = MPC.select ∨ s.m = MPC.renderSend) →
      (s.g = GPC.host ∨ s.g = GPC.drawRecv ∨ s.g = GPC.closer ∨ s.g = GPC.exitSend
        ∨ s.g = GPC.finished))
  ∧ (s.m = MPC.renderRecv → (s.g = GPC.drawPaint ∨ s.g = GPC.drawSend))
  ∧ (s.m = MPC.done ↔ s.g = GPC.finished)

lemma sInv_init : SInv SInit := by
  unfold SInv SInit
  refine ⟨?_, ?_, ?_, ?_, ?_⟩ <;> simp

lemma sInv_step (s s' : SState) (hinv : SInv s) (h : SStep s s') : SInv s' := by
  obtain ⟨i1, i2, i3, i4, i5⟩ := hinv
  cases h with
  | shutTimer hm hsd =>
      exact ⟨i1, fun _ => rfl, i3, i4, i5⟩
  | tick hm =>
      exact ⟨i1, i2, fun _ => i3 (Or.inl hm), fun h2 => absurd h2 (by simp),
        ⟨fun h2 => absurd h2 (by simp),
         fun hg => absurd ((i5.mpr hg).symm.trans hm) (by simp)⟩⟩
  | readySync hm hg hc =>
      exact ⟨⟨fun h2 => absurd (hc.symm.trans h2) (by simp),
          fun h2 => absurd h2 (by simp)⟩,
        fun h2 => absurd h2 (by simp), fun h2 => absurd h2 (by simp),
        fun _ => Or.inl rfl,
        ⟨fun h2 => absurd h2 (by simp), fun h2 => absurd h2 (by simp)⟩⟩
  | sendClosed hm hc =>
      exact ⟨i1, i2, fun _ => i3 (Or.inr hm), fun h2 => absurd h2 (by simp),
        ⟨fun h2 => absurd h2 (by simp),
         fun hg => absurd ((i5.mpr hg).symm.trans hm) (by simp)⟩⟩
  | paintDone hg =>
      refine ⟨⟨fun h2 => ?_, fun h2 => absurd h2 (by simp)⟩,
        fun h2 => absurd h2 (by simp), fun h2 => ?_, fun _ => Or.inr rfl,
        ⟨fun h2 => ?_, fun h2 => absurd h2 (by simp)⟩⟩
      · rcases i1.mp h2 with h3 | h3 <;> rw [hg] at h3 <;> simp at h3
      · rcases i3 h2 with h3 | h3 | h3 | h3 | h3 <;> rw [hg] at h3 <;> simp at h3
      · have h3 := i5.mp h2
        rw [hg] at h3
        simp at h3
  | ackSync hm hg hc =>
      exact ⟨⟨fun h2 => absurd (hc.symm.trans h2) (by simp),
          fun h2 => absurd h2 (by simp)⟩,
        fun h2 => absurd h2 (by simp), fun _ => Or.inl rfl,
        fun h2 => absurd h2 (by simp),
        ⟨fun h2 => absurd h2 (by simp), fun h2 => absurd h2 (by simp)⟩⟩
  | recvClosed hm hc =>
      exfalso
      rcases i4 hm with h3 | h3 <;> rcases i1.mp hc with h4 | h4 <;>
        rw [h3] at h4 <;> simp at h4
  | hostNext hg hsd =>
      refine ⟨⟨fun h2 => ?_, fun h2 => absurd h2 (by simp)⟩,
        fun h2 => absurd h2 (by simp), fun _ => Or.inr (Or.inl rfl),
        fun h2 => ?_, ⟨fun h2 => ?_, fun h2 => absurd h2 (by simp)⟩⟩
      · rcases i1.mp h2 with h3 | h3 <;> rw [hg] at h3 <;> simp at h3
      · rcases i4 h2 with h3 | h3 <;> rw [hg] at h3 <;> simp at h3
      · have h3 := i5.mp h2
        rw [hg] at h3
        simp at h3
  | hostShut hg hsd =>
      refine ⟨⟨fun h2 => ?_, fun h2 => absurd h2 (by simp)⟩,
        fun _ => hsd, fun _ => Or.inr (Or.inr (Or.inl rfl)),
        fun h2 => ?_, ⟨fun h2 => ?_, fun h2 => absurd h2 (by simp)⟩⟩
      · rcases i1.mp h2 with h3 | h3 <;> rw [hg] at h3 <;> simp at h3
      · rcases i4 h2 with h3 | h3 <;> rw [hg] at h3 <;> simp at h3
      · have h3 := i5.mp h2
        rw [hg] at h3
        simp at h3
  | closeCh hg =>
      refine ⟨⟨fun _ => Or.inl rfl, fun _ => rfl⟩,
        fun _ => i2 (Or.inl hg), fun _ => Or.inr (Or.inr (Or.inr (Or.inl rfl))),
        fun h2 => ?_, ⟨fun h2 => ?_, fun h2 => absurd h2 (by simp)⟩⟩
      · rcases i4 h2 with h3 | h3 <;> rw [hg] at h3 <;> simp at h3
      · have h3 := i5.mp h2
        rw [hg] at h3
        simp at h3
  | exitSync hm hg =>
      exact ⟨⟨fun _ => Or.inr rfl, fun _ => i1.mpr (Or.inl hg)⟩,
        fun _ => i2 (Or.inr (Or.inl hg)), fun h2 => absurd h2 (by simp),
        fun h2 => absurd h2 (by simp), ⟨fun _ => rfl, fun _ => rfl⟩⟩
  | drawRecvClosed hg hc =>
      exfalso
      rcases i1.mp hc with h3 | h3 <;> rw [hg] at h3 <;> simp at h3
  | drawSendClosed hg hc =>
      exfalso
      rcases i1.mp hc with h3 | h3 <;> rw [hg] at h3 <;> simp at h3

lemma sInv_reach (s : SState) (hs : SReach s) : SInv s := by
  induction hs with
  | refl => exact sInv_init
  | tail _ hbc ih => exact sInv_step _ _ ih hbc

end Shutdown

namespace Shutdown

/-- C7 counterexample: after the shutdown flag is set the update loop can
perform TWO further handshake attempts, not at most one: the host closes
`r.ch` and blocks sending the exit signal, but the loop's select can keep
choosing the still-firing ticker over the exit channel, and each
`r.Render()` then panics on the closed channel and is recovered. The final
state records `attempts = 2` handshake attempts entered after `sd`. -/
theorem C7_two_attempts_after_shutdown :
    SReach (SState.mk MPC.select GPC.exitSend true true 2 true) := by
  refine Relation.ReflTransGen.head (SStep.shutTimer SInit rfl rfl) ?_
  refine Relation.ReflTransGen.head (SStep.hostShut _ rfl rfl) ?_
  refine Relation.ReflTransGen.head (SStep.closeCh _ rfl) ?_
  refine Relation.ReflTransGen.head (SStep.tick _ rfl) ?_
  refine Relation.ReflTransGen.head (SStep.sendClosed _ rfl rfl) ?_
  refine Relation.ReflTransGen.head (SStep.tick _ rfl) ?_
  exact Relation.ReflTransGen.single (SStep.sendClosed _ rfl rfl)

/-- C8: the closed-channel panic branch IS reachable: in the shutdown race
the loop's `r.Render()` sends on `r.ch` after `close(r.ch)` has run, the
send panics, and the `recover` branch executes (`panicked = true`); the
close is not ordered after the other task's last access. -/
theorem C8_closed_channel_panic_reachable :
    SReach (SState.mk MPC.select GPC.exitSend true true 1 true) := by
  refine Relation.ReflTransGen.head (SStep.shutTimer SInit rfl rfl) ?_
  refine Relation.ReflTransGen.head (SStep.hostShut _ rfl rfl) ?_
  refine Relation.ReflTransGen.head (SStep.closeCh _ rfl) ?_
  refine Relation.ReflTransGen.head (SStep.tick _ rfl) ?_
  exact Relation.ReflTransGen.single (SStep.sendClosed _ rfl rfl)

/-- C7 (amended): once the shutdown flag is set, the render side's next host
invocation reports the `"Shutdown"` stop sentinel instead of painting; the
update loop may perform several more handshake attempts, but an attempt made
after the channel is closed completes immediately (recovered closed-channel
panic), and from every reachable post-shutdown state the loop can run to its
exit (`m = done`), so it never blocks forever. -/
theorem C7_shutdown_behaviour :
    (∀ b : Bool, b = true → rendererUpdateHook b = Except.error "Shutdown")
    ∧ (∀ s : SState, s.m = MPC.renderSend → s.closed = true →
        SStep s { s with m := MPC.select, panicked := true })
    ∧ (∀ s : SState, SReach s → s.sd = true →
        ∃ s', Relation.ReflTransGen SStep s s' ∧ s'.m = MPC.done) := by
  refine ⟨fun b hb => by rw [hb]; rfl, fun s hm hc => SStep.sendClosed s hm hc, ?_⟩
  intro s hs hsd
  obtain ⟨i1, i2, i3, i4, i5⟩ := sInv_reach s hs
  have hcf : s.g ≠ GPC.exitSend → s.g ≠ GPC.finished → s.closed = false := by
    intro h1 h2
    cases hcl : s.closed
    · rfl
    · rcases i1.mp hcl with h | h
      · exact absurd h h1
      · exact absurd h h2
  cases hm : s.m with
  | done => exact ⟨s, Relation.ReflTransGen.refl, hm⟩
  | select =>
      rcases i3 (Or.inl hm) with hg | hg | hg | hg | hg
      · exact ⟨_, Relation.ReflTransGen.head (SStep.hostShut s hg hsd)
          (Relation.ReflTransGen.head (SStep.closeCh _ rfl)
            (Relation.ReflTransGen.single (SStep.exitSync _ hm rfl))), rfl⟩
      · have hc : s.closed = false := hcf (by rw [hg]; simp) (by rw [hg]; simp)
        exact ⟨_, Relation.ReflTransGen.head (SStep.tick s hm)
          (Relation.ReflTransGen.head (SStep.readySync _ rfl hg hc)
            (Relation.ReflTransGen.head (SStep.paintDone _ rfl)
              (Relation.ReflTransGen.head (SStep.ackSync _ rfl rfl hc)
                (Relation.ReflTransGen.head (SStep.hostShut _ rfl hsd)
                  (Relation.ReflTransGen.head (SStep.closeCh _ rfl)
                    (Relation.ReflTransGen.single (SStep.exitSync _ rfl rfl))))))), rfl⟩
      · exact ⟨_, Relation.ReflTransGen.head (SStep.closeCh s hg)
          (Relation.ReflTransGen.single (SStep.exitSync _ hm rfl)), rfl⟩
      · exact ⟨_, Relation.ReflTransGen.single (SStep.exitSync s hm hg), rfl⟩
      · exact absurd ((i5.mpr hg).symm.trans hm) (by simp)
  | renderSend =>
      rcases i3 (Or.inr hm) with hg | hg | hg | hg | hg
      · exact ⟨_, Relation.ReflTransGen.head (SStep.hostShut s hg hsd)
          (Relation.ReflTransGen.head (SStep.closeCh _ rfl)
            (Relation.ReflTransGen.head (SStep.sendClosed _ hm rfl)
              (Relation.ReflTransGen.single (SStep.exitSync _ rfl rfl)))), rfl⟩
      · have hc : s.closed = false := hcf (by rw [hg]; simp) (by rw [hg]; simp)
        exact ⟨_, Relation.ReflTransGen.head (SStep.readySync s hm hg hc)
          (Relation.ReflTransGen.head (SStep.paintDone _ rfl)
            (Relation.ReflTransGen.head (SStep.ackSync _ rfl rfl hc)
              (Relation.ReflTransGen.head (SStep.hostShut _ rfl hsd)
                (Relation.ReflTransGen.head (SStep.closeCh _ rfl)
                  (Relation.ReflTransGen.single (SStep.exitSync _ rfl rfl)))))), rfl⟩
      · exact ⟨_, Relation.ReflTransGen.head (SStep.closeCh s hg)
          (Relation.ReflTransGen.head (SStep.sendClosed _ hm rfl)
            (Relation.ReflTransGen.single (SStep.exitSync _ rfl rfl))), rfl⟩
      · exact ⟨_, Relation.ReflTransGen.head (SStep.sendClosed s hm (i1.mpr (Or.inl hg)))
          (Relation.ReflTransGen.single (SStep.exitSync _ rfl hg)), rfl⟩
      · exact absurd ((i5.mpr hg).symm.trans hm) (by simp)
  | renderRecv =>
      rcases i4 hm with hg | hg
      · have hc : s.closed = false := hcf (by rw [hg]; simp) (by rw [hg]; simp)
        exact ⟨_, Relation.ReflTransGen.head (SStep.paintDone s hg)
          (Relation.ReflTransGen.head (SStep.ackSync _ hm rfl hc)
            (Relation.ReflTransGen.head (SStep.hostShut _ rfl hsd)
              (Relation.ReflTransGen.head (SStep.closeCh _ rfl)
                (Relation.ReflTransGen.single (SStep.exitSync _ rfl rfl))))), rfl⟩
      · have hc : s.closed = false := hcf (by rw [hg]; simp) (by rw [hg]; simp)
        exact ⟨_, Relation.ReflTransGen.head (SStep.ackSync s hm hg hc)
          (Relation.ReflTransGen.head (SStep.hostShut _ rfl hsd)
            (Relation.ReflTransGen.head (SStep.closeCh _ rfl)
              (Relation.ReflTransGen.single (SStep.exitSync _ rfl rfl)))), rfl⟩

theorem C7_shutdown_behaviour_witness :
    rendererUpdateHook true = Except.error "Shutdown"
    ∧ ∃ s', Relation.ReflTransGen SStep
        (SState.mk MPC.select GPC.host true false 0 false) s' ∧ s'.m = MPC.done :=
  ⟨C7_shutdown_behaviour.1 true rfl,
   C7_shutdown_behaviour.2.2 (SState.mk MPC.select GPC.host true false 0 false)
     (Relation.ReflTransGen.single (SStep.shutTimer SInit rfl rfl)) rfl⟩

end Shutdown
